import Mathlib

/-!
Verification of the pkpdbuilder core against its specification.

The definitions below are a shallow embedding of the TypeScript/JavaScript
source: the project-memory tools (src/tools/memory.ts), the tool registry
(src/tools/registry.ts), the external R runtime bridge (src/mcp-server.ts
`runRScript` and the compiled r-bridge `runRScript`), the Anthropic
streaming provider (dist/providers/anthropic.js), and the agent loop
(`PKPDBuilderAgent.run`).  JavaScript objects used as string maps are
embedded as association lists, JavaScript exceptions as an explicit
`Except` with an error value, and the filesystem / subprocess environment
as explicit inputs describing what the environment would do.
-/

namespace PKPD

/-! # Definitions -/

/-! ## Association lists: the embedding of JS object key assignment and Map.set.

`obj[k] = v` on a JS object (and `Map.set(k, v)`) replaces the value at an
existing key in place, keeping insertion order, and appends a fresh key at
the end. -/

def setKey {α : Type} : List (String × α) → String → α → List (String × α)
| [], k, v => [(k, v)]
| (k', v') :: rest, k, v =>
  if k' = k then (k, v) :: rest else (k', v') :: setKey rest k v

def lookupKey {α : Type} : List (String × α) → String → Option α
| [], _ => none
| (k', v') :: rest, k => if k' = k then some v' else lookupKey rest k

/-! ## Project memory tools (src/tools/memory.ts).

The on-disk memory file `.pkpdbuilder/memory.json` is embedded as
`Option FileContent`: `none` when the file does not exist, and otherwise
either a parsed flat string-to-string object or unparsable text (the
`JSON.parse` failure carries the message of the thrown error). -/

inductive FileContent where
| corrupt (parseErrorMsg : String)
| obj (entries : List (String × String))
deriving DecidableEq

abbrev MemFile := Option FileContent

structure MemoryReadResult where
  success : Bool
  message : Option String
  memory : Option (List (String × String))
  error : Option String
deriving DecidableEq

/-- Embedding of `memoryRead`: missing file yields `success: true` with an
empty memory object, an unparsable file yields `success: false` with the
parse error message, and a parsable file yields its entries. -/
def memoryRead (file : MemFile) : MemoryReadResult :=
  match file with
  | none => ⟨true, some "No project memory found", some [], none⟩
  | some (.corrupt e) => ⟨false, none, none, some e⟩
  | some (.obj m) => ⟨true, none, some m, none⟩

structure MemoryWriteResult where
  success : Bool
  message : String
deriving DecidableEq

/-- Embedding of `memoryWrite`: load the existing object (an empty object
when the file is missing or its JSON is unparsable — the source comment
reads "Start fresh if corrupted"), assign `memory[key] = value`, and
rewrite the whole file.  Returns the tool result together with the new
file state. -/
def memoryWrite (file : MemFile) (key value : String) :
    MemoryWriteResult × MemFile :=
  let memory : List (String × String) :=
    match file with
    | none => []
    | some (.corrupt _) => []
    | some (.obj m) => m
  (⟨true, "Stored: " ++ key⟩, some (.obj (setKey memory key value)))

/-! ## Tool registry (src/tools/registry.ts).

A JavaScript exception is embedded as a value carrying its `.message`
field and its `String(error)` rendering; the source converts a caught
error with `error.message || String(error)`, where an empty message is
falsy. -/

structure JSError where
  message : String
  str : String
deriving DecidableEq

def errText (e : JSError) : String :=
  if e.message = "" then e.str else e.message

structure Tool where
  name : String
  description : String
deriving DecidableEq

/-- Registry state: `TOOL_DEFINITIONS` is a plain array (push appends) and
`TOOL_HANDLERS` is a `Map` from tool name to handler.  A handler takes
arguments of type `A` and either returns a result of type `R` or throws. -/
structure Registry (A R : Type) where
  defs : List Tool
  handlers : List (String × (A → Except JSError R))

/-- Embedding of `registerTool`: unconditionally pushes the definition onto
`TOOL_DEFINITIONS` and sets the handler in `TOOL_HANDLERS`. -/
def registerTool {A R : Type} (reg : Registry A R) (tool : Tool)
    (handler : A → Except JSError R) : Registry A R :=
  ⟨reg.defs ++ [tool], setKey reg.handlers tool.name handler⟩

/-- What `executeTool` resolves to: either the value the handler returned,
or the `\x7b success: false, error \x7d` envelope the registry builds for an
unknown name or a thrown handler error. -/
inductive ExecResult (R : Type) where
| fromHandler (r : R)
| failure (error : String)
deriving DecidableEq

/-- Embedding of `executeTool`: look the name up in `TOOL_HANDLERS`; when
absent return the unknown-tool failure envelope; otherwise invoke the
handler inside try/catch, converting a thrown error into a failure
envelope.  The `Except` on the return type records whether `executeTool`
itself throws to its caller. -/
def executeTool {A R : Type} (reg : Registry A R) (name : String) (args : A) :
    Except JSError (ExecResult R) :=
  match lookupKey reg.handlers name with
  | none => .ok (.failure ("Unknown tool: " ++ name))
  | some handler =>
    match handler args with
    | .ok r => .ok (.fromHandler r)
    | .error e => .ok (.failure (errText e))

def dupHandlerFst : Nat → Except JSError Nat := fun _ => .ok 1

def dupHandlerSnd : Nat → Except JSError Nat := fun _ => .ok 2

/-- A registry built by registering one tool under the name "t". -/
def dupRegistryFst : Registry Nat Nat :=
  registerTool ⟨[], []⟩ ⟨"t", "first"⟩ dupHandlerFst

/-- The registry after a second `registerTool` call reusing the name "t". -/
def dupRegistry : Registry Nat Nat :=
  registerTool dupRegistryFst ⟨"t", "second"⟩ dupHandlerSnd

/-! ## External runtime bridge, MCP server variant (src/mcp-server.ts `runRScript`).

The subprocess environment is embedded as an input describing what
`execFile`'s callback would observe: either a non-null `error` (non-zero
exit or timeout) with the captured stderr and the error's message, or a
normal exit with captured stdout and the state of the result file —
absent, present but unparsable, or parsed to a JSON value of type `J`. -/

inductive SubprocOutcome (J : Type) where
| procError (stderr errMessage : String)
| procOk (stdout : String) (resultFile : Option (Option J))
deriving DecidableEq

inductive RResultMCP (J : Type) where
| failure (error : String)
| okSpread (result : J)
| okStdout (stdout message : String)
deriving DecidableEq

structure MCPRunOutcome (J : Type) where
  result : RResultMCP J
  spawned : Bool
  argsFileRemains : Bool
  resultFileRemains : Bool
deriving DecidableEq

/-- Embedding of the MCP server's `runRScript`.  When the script path does
not exist it returns the not-found failure before creating temp files or
spawning.  Otherwise the callback always unlinks the args file; on a
subprocess error it also unlinks the result file and fails with
`stderr || error.message`; on success it parses the result file when
present — and only unlinks it when the parse succeeds, because the
`unlinkSync` sits after `JSON.parse` inside the `try`. -/
def runRScriptMCP (J : Type) (scriptExists : Bool) (scriptName : String)
    (sub : SubprocOutcome J) : MCPRunOutcome J :=
  if scriptExists then
    match sub with
    | .procError stderr errMessage =>
      ⟨.failure (if stderr = "" then errMessage else stderr), true, false, false⟩
    | .procOk stdout resultFile =>
      match resultFile with
      | none =>
        ⟨.okStdout stdout "Script completed (no structured output).", true, false, false⟩
      | some none =>
        ⟨.okStdout stdout "Script completed.", true, false, true⟩
      | some (some j) =>
        ⟨.okSpread j, true, false, false⟩
  else
    ⟨.failure ("R script not found: " ++ scriptName), false, false, false⟩

/-! ## External runtime bridge, compiled r-bridge variant (`runRScript` in
the dist r-bridge module).

Here the subprocess is awaited via a promisified `execFile` inside
try/finally: the `finally` unlinks both the input and the output temp
file on every path.  The environment input records either a rejection
(non-zero exit or timeout, carrying the error object's stdout, stderr and
message) or a normal completion with the state of the output file. -/

inductive BridgeSubproc (J : Type) where
| thrown (stdout stderr errMessage : String)
| completed (stdout stderr : String) (outputFile : Option (Option J))
deriving DecidableEq

structure BridgeResult (J : Type) where
  success : Bool
  stdout : String
  stderr : String
  error : Option String
  result : Option (Option J)
deriving DecidableEq

structure BridgeRunOutcome (J : Type) where
  res : BridgeResult J
  spawned : Bool
  inputFileRemains : Bool
  outputFileRemains : Bool
deriving DecidableEq

/-- Embedding of the r-bridge `runRScript`: a missing script path returns
the `Script not found` failure before any temp file or subprocess; the
`result` field is `some none` when the output file exists but its JSON is
unparsable (the source substitutes an error object), `some (some j)` on a
parsed output, and `none` when no output file was written; the `finally`
block removes both temp files on every exit path. -/
def runRScriptBridge (J : Type) (scriptExists : Bool) (scriptPath : String)
    (sub : BridgeSubproc J) : BridgeRunOutcome J :=
  if scriptExists then
    match sub with
    | .thrown stdout stderr errMessage =>
      ⟨⟨false, stdout, stderr, some errMessage, none⟩, true, false, false⟩
    | .completed stdout stderr outputFile =>
      ⟨⟨true, stdout, stderr, none, outputFile⟩, true, false, false⟩
  else
    ⟨⟨false, "", "Script not found: " ++ scriptPath,
      some ("Script not found: " ++ scriptPath), none⟩, false, false, false⟩

/-! ## Anthropic streaming provider (dist/providers/anthropic.js `stream`).

The vendor's server-sent events are embedded as a list of `StreamEvent`s
and the source's `for await` loop over them as a left fold over the
mutable locals (`textContent`, `toolCalls`, `currentToolCall`,
`stopReason`).  A tool call's arguments are a JSON object, embedded as an
association list. -/

structure StreamToolCall where
  id : String
  name : String
  arguments : List (String × String)
deriving DecidableEq

inductive StreamEvent where
| blockStartToolUse (id name : String)
| blockStartText
| deltaText (text : String)
| deltaInputJson (fragment : String)
| blockStop
| messageDelta (stopReason : Option String)
| messageStop
deriving DecidableEq

structure StreamState where
  textContent : String
  toolCalls : List StreamToolCall
  currentToolCall : Option StreamToolCall
  stopReason : String
deriving DecidableEq

/-- One iteration of the event loop in `AnthropicProvider.stream`.  On a
`tool_use` block start the current tool call is created with `arguments`
initialised to the empty object; on an `input_json_delta` the source binds
`event.delta.partial_json` to a local constant and performs no further
action with it (its own comment notes accumulation is still needed), so
the state is unchanged; on `content_block_stop` the current tool call is
pushed when its id is truthy. -/
def streamStep (st : StreamState) (e : StreamEvent) : StreamState :=
  match e with
  | .blockStartToolUse id name =>
    { st with currentToolCall := some ⟨id, name, []⟩ }
  | .blockStartText => st
  | .deltaText t => { st with textContent := st.textContent ++ t }
  | .deltaInputJson _fragment => st
  | .blockStop =>
    match st.currentToolCall with
    | some tc =>
      if tc.id = "" then st
      else { st with toolCalls := st.toolCalls ++ [tc], currentToolCall := none }
    | none => st
  | .messageDelta stopReason =>
    match stopReason with
    | some s => if s = "" then st else { st with stopReason := s }
    | none => st
  | .messageStop => st

def streamInit : StreamState := ⟨"", [], none, "end_turn"⟩

/-- Embedding of the whole event loop of `AnthropicProvider.stream`. -/
def streamRun (events : List StreamEvent) : StreamState :=
  events.foldl streamStep streamInit

/-- The argument-emptiness invariant preserved by every event. -/
def streamArgsEmpty (st : StreamState) : Prop :=
  (∀ tc ∈ st.toolCalls, tc.arguments = [])
  ∧ (∀ tc, st.currentToolCall = some tc → tc.arguments = [])

/-- A concrete stream: one `tool_use` block whose input arrives as two
JSON fragments that concatenate to `\x7b"dataset":"d.csv"\x7d`. -/
def evsC3 : List StreamEvent :=
  [.blockStartToolUse "toolu_01" "load_dataset",
   .deltaInputJson "\x7b\"dataset\":",
   .deltaInputJson "\"d.csv\"\x7d",
   .blockStop]

/-! ## Agent loop (`PKPDBuilderAgent.run`).

The provider is embedded as a pure function from the conversation history
to the normalized response (the streaming and non-streaming branches both
produce one `ChatResponse`; the streaming chunk callback never touches the
history).  `content` is `""` when the response carries no text (the source
guards appends with the truthiness of `response.content`), and
`tool_calls` is `[]` when absent.  Tool arguments have an opaque type `A`,
and `exec` embeds `executeTool` composed with `JSON.stringify`: it maps a
tool name and arguments to the serialized result string. -/

structure AgentMessage where
  role : String
  content : String
deriving DecidableEq

structure AgentToolCall (A : Type) where
  id : String
  name : String
  arguments : A
deriving DecidableEq

structure ChatResponse (A : Type) where
  content : String
  tool_calls : List (AgentToolCall A)
deriving DecidableEq

/-- The `user`-role message the loop appends for one executed tool call:
`Tool "<name>" returned:` followed by the serialized result. -/
def toolResultMsg {A : Type} (exec : String → A → String)
    (tc : AgentToolCall A) : AgentMessage :=
  ⟨"user", "Tool \"" ++ tc.name ++ "\" returned:\n" ++ exec tc.name tc.arguments⟩

/-- The `for (const toolCall of response.tool_calls)` body: execute each
call in order and push its result message. -/
def execToolCalls {A : Type} (exec : String → A → String)
    (messages : List AgentMessage) (tcs : List (AgentToolCall A)) :
    List AgentMessage :=
  tcs.foldl (fun ms tc => ms ++ [toolResultMsg exec tc]) messages

/-- `if (response.content) this.addAssistantMessage(response.content)`. -/
def appendAssistant (messages : List AgentMessage) (content : String) :
    List AgentMessage :=
  if content = "" then messages else messages ++ [⟨"assistant", content⟩]

/-- `if (response.content) finalResponse = response.content`. -/
def updateFinal (finalResponse content : String) : String :=
  if content = "" then finalResponse else content

structure LoopResult where
  messages : List AgentMessage
  finalResponse : String
  iterations : Nat
deriving DecidableEq

/-- Embedding of the `while (iterations < this.maxIterations)` loop of
`run`, with `fuel = maxIterations - iterations` so that positive fuel is
exactly the loop condition.  Each round increments `iterations`, makes one
provider call, appends the assistant text when present, and either breaks
(no tool calls) or executes the calls and loops. -/
def runLoop {A : Type} (provider : List AgentMessage → ChatResponse A)
    (exec : String → A → String) :
    Nat → Nat → List AgentMessage → String → LoopResult
| 0, iterations, messages, finalResponse => ⟨messages, finalResponse, iterations⟩
| fuel + 1, iterations, messages, finalResponse =>
  let response := provider messages
  let messages1 := appendAssistant messages response.content
  let final1 := updateFinal finalResponse response.content
  match response.tool_calls with
  | [] => ⟨messages1, final1, iterations + 1⟩
  | tc :: rest =>
    runLoop provider exec fuel (iterations + 1)
      (execToolCalls exec messages1 (tc :: rest)) final1

def warningText : String :=
  "\n\n[Warning: Max iterations reached. Analysis may be incomplete.]"

/-- The post-loop step of `run`: append the warning when
`iterations >= this.maxIterations`. -/
def finishRun (maxIterations : Nat) (r : LoopResult) : String :=
  if maxIterations ≤ r.iterations then r.finalResponse ++ warningText
  else r.finalResponse

structure RunResult where
  text : String
  messages : List AgentMessage
  iterations : Nat
deriving DecidableEq

/-- Embedding of `PKPDBuilderAgent.run`: push the user message, run the
loop from zero iterations with full fuel, then apply the warning step. -/
def run {A : Type} (provider : List AgentMessage → ChatResponse A)
    (exec : String → A → String) (maxIterations : Nat)
    (history : List AgentMessage) (userMessage : String) : RunResult :=
  let messages0 := history ++ [⟨"user", userMessage⟩]
  let r := runLoop provider exec maxIterations 0 messages0 ""
  ⟨finishRun maxIterations r, r.messages, r.iterations⟩

/-- C1 building blocks for the witness: a response with two tool calls. -/
def respC1 : ChatResponse Unit := ⟨"working", [⟨"a", "t1", ()⟩, ⟨"b", "t2", ()⟩]⟩

def providerC1 : List AgentMessage → ChatResponse Unit := fun _ => respC1

def execC1 : String → Unit → String := fun name _ => "result of " ++ name

def providerC4 : List AgentMessage → ChatResponse Unit :=
  fun _ => ⟨"still working", [⟨"id1", "fit_model", ()⟩]⟩

def execC4 : String → Unit → String := fun _ _ => "ok"

def providerC9 : List AgentMessage → ChatResponse Unit := fun _ => ⟨"done", []⟩

def execC9 : String → Unit → String := fun _ _ => "ok"

/-! # Helper lemmas -/

theorem lookupKey_setKey_self {α : Type} (m : List (String × α)) (k : String) (v : α) :
    lookupKey (setKey m k v) k = some v := by
  induction m with
  | nil => simp [setKey, lookupKey]
  | cons hd tl ih =>
    obtain ⟨k', v'⟩ := hd
    by_cases h : k' = k
    · simp [setKey, lookupKey, h]
    · simp [setKey, lookupKey, h, ih]

theorem setKey_setKey_same {α : Type} (m : List (String × α)) (k : String) (v : α) :
    setKey (setKey m k v) k v = setKey m k v := by
  induction m with
  | nil => simp [setKey]
  | cons hd tl ih =>
    obtain ⟨k', v'⟩ := hd
    by_cases h : k' = k
    · simp [setKey, h]
    · simp [setKey, h, ih]

theorem streamStep_argsEmpty (st : StreamState) (e : StreamEvent)
    (h : streamArgsEmpty st) : streamArgsEmpty (streamStep st e) := by
  obtain ⟨h1, h2⟩ := h
  cases e with
  | blockStartToolUse id name =>
    exact ⟨h1, by intro tc htc; simp [streamStep] at htc; simp [← htc]⟩
  | blockStartText => exact ⟨h1, h2⟩
  | deltaText t => exact ⟨h1, h2⟩
  | deltaInputJson fragment => exact ⟨h1, h2⟩
  | blockStop =>
    cases hc : st.currentToolCall with
    | none => simpa [streamStep, hc] using ⟨h1, h2⟩
    | some tc =>
      by_cases hid : tc.id = ""
      · simpa [streamStep, hc, hid] using ⟨h1, h2⟩
      · refine ⟨?_, by simp [streamStep, hc, hid]⟩
        intro tc' htc'
        simp [streamStep, hc, hid] at htc'
        cases htc' with
        | inl hmem => exact h1 tc' hmem
        | inr heq => exact heq ▸ h2 tc hc
  | messageDelta stopReason =>
    cases stopReason with
    | none => exact ⟨h1, h2⟩
    | some s =>
      by_cases hs : s = ""
      · simpa [streamStep, hs] using ⟨h1, h2⟩
      · simpa [streamStep, hs] using ⟨h1, h2⟩
  | messageStop => exact ⟨h1, h2⟩

theorem streamFold_argsEmpty (events : List StreamEvent) (st : StreamState)
    (h : streamArgsEmpty st) : streamArgsEmpty (events.foldl streamStep st) := by
  induction events generalizing st with
  | nil => exact h
  | cons e rest ih => exact ih (streamStep st e) (streamStep_argsEmpty st e h)

theorem streamInit_argsEmpty : streamArgsEmpty streamInit := by
  constructor
  · intro tc htc
    simp [streamInit] at htc
  · intro tc htc
    simp [streamInit] at htc

theorem execToolCalls_eq_append {A : Type} (exec : String → A → String)
    (messages : List AgentMessage) (tcs : List (AgentToolCall A)) :
    execToolCalls exec messages tcs
      = messages ++ tcs.map (toolResultMsg exec) := by
  induction tcs generalizing messages with
  | nil => simp [execToolCalls]
  | cons tc rest ih =>
    show execToolCalls exec (messages ++ [toolResultMsg exec tc]) rest = _
    rw [ih]
    simp

theorem runLoop_iterations_le {A : Type}
    (provider : List AgentMessage → ChatResponse A) (exec : String → A → String)
    (fuel iterations : Nat) (messages : List AgentMessage)
    (finalResponse : String) :
    (runLoop provider exec fuel iterations messages finalResponse).iterations
      ≤ iterations + fuel := by
  induction fuel generalizing iterations messages finalResponse with
  | zero => simp [runLoop]
  | succ f ih =>
    cases htc : (provider messages).tool_calls with
    | nil =>
      simp [runLoop, htc]
    | cons tc rest =>
      simp only [runLoop, htc]
      exact (ih _ _ _).trans (by omega)

theorem runLoop_iterations_exact {A : Type}
    (provider : List AgentMessage → ChatResponse A) (exec : String → A → String)
    (h : ∀ M, (provider M).tool_calls ≠ []) (fuel iterations : Nat)
    (messages : List AgentMessage) (finalResponse : String) :
    (runLoop provider exec fuel iterations messages finalResponse).iterations
      = iterations + fuel := by
  induction fuel generalizing iterations messages finalResponse with
  | zero => simp [runLoop]
  | succ f ih =>
    cases htc : (provider messages).tool_calls with
    | nil => exact absurd htc (h messages)
    | cons tc rest =>
      simp only [runLoop, htc]
      rw [ih]
      omega

/-! # Claim theorems -/

/-- C1: between two consecutive provider calls, the loop appends exactly
one tool-result message per returned tool call.  When a round's response
carries a non-empty batch of tool calls, the next round starts from the
previous history extended by (optionally) the assistant text and then by
the mapped result messages — exactly as many as there are tool calls, the
i-th result corresponding to the i-th call, none dropped, none
duplicated. -/
theorem tool_results_appended_in_order (A : Type)
    (provider : List AgentMessage → ChatResponse A) (exec : String → A → String)
    (fuel iterations : Nat) (messages : List AgentMessage)
    (finalResponse : String) (r : ChatResponse A)
    (hp : provider messages = r) (hne : r.tool_calls ≠ []) :
    (runLoop provider exec (fuel + 1) iterations messages finalResponse
      = runLoop provider exec fuel (iterations + 1)
          (appendAssistant messages r.content
            ++ r.tool_calls.map (toolResultMsg exec))
          (updateFinal finalResponse r.content))
    ∧ (r.tool_calls.map (toolResultMsg exec)).length = r.tool_calls.length
    ∧ ∀ (i : Nat) (h1 : i < r.tool_calls.length)
        (h2 : i < (r.tool_calls.map (toolResultMsg exec)).length),
        (r.tool_calls.map (toolResultMsg exec)).get ⟨i, h2⟩
          = toolResultMsg exec (r.tool_calls.get ⟨i, h1⟩) := by
  refine ⟨?_, by simp, ?_⟩
  · cases htc : r.tool_calls with
    | nil => exact absurd htc hne
    | cons tc rest =>
      simp only [runLoop, hp, htc]
      rw [execToolCalls_eq_append]
  · intro i h1 h2
    simp

/-- C1 witness: instantiating the in-order append theorem on a concrete
two-tool-call response. -/
theorem tool_results_appended_in_order_witness :
    (runLoop providerC1 execC1 1 0 [] ""
      = runLoop providerC1 execC1 0 1
          (appendAssistant [] respC1.content
            ++ respC1.tool_calls.map (toolResultMsg execC1))
          (updateFinal "" respC1.content))
    ∧ (respC1.tool_calls.map (toolResultMsg execC1)).length
        = respC1.tool_calls.length
    ∧ (respC1.tool_calls.map (toolResultMsg execC1)).get ⟨1, by decide⟩
        = toolResultMsg execC1 (respC1.tool_calls.get ⟨1, by decide⟩) :=
  have h := tool_results_appended_in_order Unit providerC1 execC1 0 0 [] ""
    respC1 rfl (by decide)
  ⟨h.1, h.2.1, h.2.2 1 (by decide) (by decide)⟩

/-- C2: `executeTool` never throws past the registry boundary: for every
registry, name and argument it returns normally; an unregistered name
yields the `Unknown tool` failure envelope, and a handler that throws has
its error converted into a failure envelope carrying the error message. -/
theorem executeTool_never_throws (A R : Type) (reg : Registry A R)
    (name : String) (args : A) :
    (∃ r, executeTool reg name args = .ok r)
    ∧ (lookupKey reg.handlers name = none →
        executeTool reg name args = .ok (.failure ("Unknown tool: " ++ name)))
    ∧ (∀ handler e, lookupKey reg.handlers name = some handler →
        handler args = .error e →
        executeTool reg name args = .ok (.failure (errText e))) := by
  refine ⟨?_, ?_, ?_⟩
  · cases h : lookupKey reg.handlers name with
    | none => exact ⟨.failure ("Unknown tool: " ++ name), by simp [executeTool, h]⟩
    | some handler =>
      cases hr : handler args with
      | ok r => exact ⟨.fromHandler r, by simp [executeTool, h, hr]⟩
      | error e => exact ⟨.failure (errText e), by simp [executeTool, h, hr]⟩
  · intro h
    simp [executeTool, h]
  · intro handler e hl he
    simp [executeTool, hl, he]

/-- C2 witness: on an empty registry, `executeTool` returns the
unknown-tool envelope for the name "foo". -/
theorem executeTool_never_throws_witness :
    executeTool (⟨[], []⟩ : Registry Nat Nat) "foo" 0
      = .ok (.failure "Unknown tool: foo") :=
  (executeTool_never_throws Nat Nat ⟨[], []⟩ "foo" 0).2.1 rfl

/-- C3: `AnthropicProvider.stream` never assembles tool-call argument
fragments: over every event sequence — incremental `input_json_delta`
fragments included — every `ToolCall` it surfaces carries the empty
argument object, because the fragment-handling branch discards the
fragment instead of accumulating it. -/
theorem stream_toolCall_arguments_always_empty (events : List StreamEvent)
    (tc : StreamToolCall) (h : tc ∈ (streamRun events).toolCalls) :
    tc.arguments = [] :=
  (streamFold_argsEmpty events streamInit streamInit_argsEmpty).1 tc h

/-- C3 witness: on the concrete fragmented stream the surfaced tool call
has empty arguments — not the object the fragments encode. -/
theorem stream_toolCall_arguments_always_empty_witness :
    (streamRun evsC3).toolCalls = [⟨"toolu_01", "load_dataset", []⟩]
    ∧ StreamToolCall.arguments ⟨"toolu_01", "load_dataset", []⟩ = []
    ∧ ([] : List (String × String)) ≠ [("dataset", "d.csv")] :=
  ⟨by decide,
   stream_toolCall_arguments_always_empty evsC3 ⟨"toolu_01", "load_dataset", []⟩
     (by decide),
   by decide⟩

/-- C4: `run` makes at most `maxIterations` provider round trips, and when
the provider returns tool calls on every round (the ceiling is reached
without a final tool-call-free response), `run` stops after exactly
`maxIterations` rounds and returns the loop's accumulated final text with
the warning string appended rather than looping further or discarding
it. -/
theorem run_bounded_with_warning (A : Type)
    (provider : List AgentMessage → ChatResponse A) (exec : String → A → String)
    (maxIterations : Nat) (history : List AgentMessage) (userMessage : String) :
    (run provider exec maxIterations history userMessage).iterations
        ≤ maxIterations
    ∧ ((∀ M, (provider M).tool_calls ≠ []) →
        (run provider exec maxIterations history userMessage).iterations
            = maxIterations
        ∧ (run provider exec maxIterations history userMessage).text
            = (runLoop provider exec maxIterations 0
                (history ++ [⟨"user", userMessage⟩]) "").finalResponse
              ++ warningText) := by
  constructor
  · have h := runLoop_iterations_le provider exec maxIterations 0
      (history ++ [⟨"user", userMessage⟩]) ""
    simpa [run] using h
  · intro h
    have hiter := runLoop_iterations_exact provider exec h maxIterations 0
      (history ++ [⟨"user", userMessage⟩]) ""
    refine ⟨by simpa [run] using hiter, ?_⟩
    simp [run, finishRun, hiter]

/-- C4 witness: a provider that always asks for a tool call exhausts the
ceiling of 2 rounds and gets the warning appended. -/
theorem run_bounded_with_warning_witness :
    (run providerC4 execC4 2 [] "analyze").iterations = 2
    ∧ (run providerC4 execC4 2 [] "analyze").text
        = (runLoop providerC4 execC4 2 0
            ([] ++ [⟨"user", "analyze"⟩]) "").finalResponse ++ warningText :=
  (run_bounded_with_warning Unit providerC4 execC4 2 [] "analyze").2
    (fun M => by simp [providerC4])

/-- C5: the claim that both temp files are deleted on every exit path is
violated by the MCP server's `runRScript` at the result-file parse-failure
path: with an existing script and a subprocess that exits normally but
writes an unparsable result file, the call resolves
`success: true, message: "Script completed."` while the result file is
left behind in the temp directory (only the args file was unlinked). -/
theorem runRScriptMCP_parse_failure_leaks :
    (runRScriptMCP Unit true "fit_model.R" (.procOk "out" (some none))).resultFileRemains
      = true
    ∧ (runRScriptMCP Unit true "fit_model.R" (.procOk "out" (some none))).result
      = .okStdout "out" "Script completed."
    ∧ (runRScriptMCP Unit true "fit_model.R" (.procOk "out" (some none))).argsFileRemains
      = false :=
  ⟨rfl, rfl, rfl⟩

/-- C6 counterexample: `registerTool` performs no uniqueness check.  After
a second registration under the already-present name "t", the definitions
array holds the name twice (a silently added duplicate) and the handler
map resolves "t" to the second handler — dispatching "t" now runs the
replacing handler (yielding 2) where before the duplicate registration it
ran the original (yielding 1). -/
theorem registerTool_duplicate_counterexample :
    dupRegistry.defs.map Tool.name = ["t", "t"]
    ∧ executeTool dupRegistry "t" 0 = .ok (.fromHandler 2)
    ∧ executeTool dupRegistryFst "t" 0 = .ok (.fromHandler 1) :=
  ⟨by decide, rfl, rfl⟩

/-- C6 amended: `registerTool` registers unconditionally.  It always
appends the definition to the definitions array (so a repeated name
produces a duplicate entry) and sets the handler in the map, so for a
repeated name the last registration's handler wins. -/
theorem registerTool_unconditional (A R : Type) (reg : Registry A R)
    (tool : Tool) (handler : A → Except JSError R) :
    (registerTool reg tool handler).defs = reg.defs ++ [tool]
    ∧ lookupKey (registerTool reg tool handler).handlers tool.name
        = some handler :=
  ⟨rfl, lookupKey_setKey_self _ _ _⟩

/-- C7 counterexample: the r-bridge `runRScript` invoked on a script path
that does not exist fails with the message `Script not found: <path>`,
which is not the claimed `R script not found: <name>` string. -/
theorem runRScriptBridge_not_found_message :
    (runRScriptBridge Unit false "eta_plots.R" (.completed "" "" none)).res.error
      = some "Script not found: eta_plots.R"
    ∧ "Script not found: eta_plots.R" ≠ "R script not found: eta_plots.R" :=
  ⟨rfl, by decide⟩

/-- C7 amended: for every script identifier that does not resolve to an
existing file, both bridge variants return a failure immediately without
spawning a subprocess; the MCP server variant's error is
`R script not found: <name>`, while the r-bridge variant's error is
`Script not found: <path>`. -/
theorem runRScript_not_found_no_spawn (J : Type) (name : String)
    (subM : SubprocOutcome J) (subB : BridgeSubproc J) :
    (runRScriptMCP J false name subM).result
        = .failure ("R script not found: " ++ name)
    ∧ (runRScriptMCP J false name subM).spawned = false
    ∧ (runRScriptBridge J false name subB).res.success = false
    ∧ (runRScriptBridge J false name subB).res.error
        = some ("Script not found: " ++ name)
    ∧ (runRScriptBridge J false name subB).spawned = false :=
  ⟨rfl, rfl, rfl, rfl, rfl⟩

/-- C8: for every key and value, `memory_read` immediately after
`memory_write(key, value)` succeeds and returns a memory object whose
entry for `key` equals `value`, and a second `memory_write` with the same
key and value leaves the stored memory file unchanged. -/
theorem memory_write_read_idempotent (file : MemFile) (key value : String) :
    (memoryRead (memoryWrite file key value).2).success = true
    ∧ (∃ m, (memoryRead (memoryWrite file key value).2).memory = some m
        ∧ lookupKey m key = some value)
    ∧ (memoryWrite (memoryWrite file key value).2 key value).2
        = (memoryWrite file key value).2 := by
  refine ⟨rfl, ⟨_, rfl, lookupKey_setKey_self _ key value⟩, ?_⟩
  simp [memoryWrite, setKey_setKey_same]

/-- C9: the warning is appended even when the model produces a final
answer within the ceiling, provided it arrives on the very last permitted
round trip.  In the loop state at the start of the `maxIterations`-th
round (fuel 1, `iterations = maxIterations - 1`), a tool-call-free
response with non-empty content `c` makes the loop break with
`iterations = maxIterations`, so the post-loop check
`iterations >= maxIterations` still fires and `run` returns
`c ++ warningText`. -/
theorem warning_appended_on_final_round (A : Type)
    (provider : List AgentMessage → ChatResponse A) (exec : String → A → String)
    (maxIterations : Nat) (messages : List AgentMessage)
    (finalResponse c : String) (hpos : 0 < maxIterations)
    (hp : provider messages = ⟨c, []⟩) (hc : c ≠ "") :
    finishRun maxIterations
      (runLoop provider exec 1 (maxIterations - 1) messages finalResponse)
      = c ++ warningText := by
  simp only [runLoop, hp]
  simp [finishRun, updateFinal, hc]
  omega

/-- C9 witness: with the default ceiling of 10, a final tool-call-free
response "done" arriving on round 10 still gets the warning appended. -/
theorem warning_appended_on_final_round_witness :
    finishRun 10 (runLoop providerC9 execC9 1 9 [] "") = "done" ++ warningText :=
  warning_appended_on_final_round Unit providerC9 execC9 10 [] "" "done"
    (by decide) rfl (by decide)

/-- C10: when the memory file exists but holds unparsable JSON,
`memory_write` still succeeds: it discards the previous contents and
rewrites the file as an object holding only the newly written key. -/
theorem memory_write_on_corrupt_file (e key value : String) :
    (memoryWrite (some (.corrupt e)) key value).1 = ⟨true, "Stored: " ++ key⟩
    ∧ (memoryWrite (some (.corrupt e)) key value).2 = some (.obj [(key, value)]) :=
  ⟨rfl, rfl⟩

end PKPD
